import Mathlib

/-!
Verification development for the gowebcompress repository.
The Go sources are shallowly embedded: Go strings and byte slices become
lists of characters, Go `http.Header` becomes an association list with the
canonical-key semantics of `net/textproto`, filesystem access becomes
explicit environment functions (`stat`, file contents), and the gzip and
brotli codecs become abstract codec parameters (the repository invokes them
as external primitives). Machine times (`time.Time`, `ModTime`) are modeled
as integers with `After`/`Before` as strict order. Go code that can panic
(string slicing out of range) is modeled with `Option`, `Option.none`
standing for the panic.
-/

/-- Strings and byte slices of the Go sources, as lists of characters. -/
abbrev Str := List Char

/-- Encoding constants from dynamic.go (`none`, `gzType`, `brType` iota). -/
def noneType : Nat := 0

/-- Encoding constant `gzType` from dynamic.go. -/
def gzType : Nat := 1

/-- Encoding constant `brType` from dynamic.go. -/
def brType : Nat := 2

/-- The `ceString` map of dynamic.go; a missing key yields the empty string
as a Go map lookup does. -/
def ceString (encoding : Nat) : Str :=
  if encoding = gzType then "gzip".toList
  else if encoding = brType then "br".toList
  else if encoding = noneType then "identity".toList
  else []

/-- The `healthyCache` map of static.go. -/
def healthyCache (encoding : Nat) : Str :=
  if encoding = noneType then ".gz".toList
  else if encoding = brType then ".br".toList
  else if encoding = gzType then ".gz".toList
  else []

/-- Go `strings.Contains s sub`: `sub` occurs as a contiguous substring. -/
def goContains (s sub : Str) : Bool := decide (sub <:+: s)

/-- Valid header-field bytes of Go net/textproto (`validHeaderFieldByte`):
alphanumerics and the token punctuation set, given by character codes. -/
def validHeaderFieldChar (c : Char) : Bool :=
  c.isAlphanum || ([33, 35, 36, 37, 38, 39, 42, 43, 45, 46, 94, 95, 96, 124, 126].contains c.toNat)

/-- Auxiliary canonicalization walk: uppercase at a word start (start of the
key or after a hyphen), lowercase elsewhere. -/
def canonicalAux : Bool → Str → Str
  | _, [] => []
  | upper, c :: cs => (if upper then c.toUpper else c.toLower) :: canonicalAux (c == '-') cs

/-- Go `textproto.CanonicalMIMEHeaderKey`: keys with an invalid byte are
returned unchanged, otherwise canonicalized word by word. -/
def canonicalMIMEHeaderKey (s : Str) : Str :=
  if s.all validHeaderFieldChar then canonicalAux true s else s

/-- Go `http.Header`: a finite map from canonical keys to value lists,
represented as an association list. -/
abbrev Header := List (Str × List Str)

/-- Lookup of the first value under an exact key (`v[0]` or empty). -/
def getCanon : Header → Str → Str
  | [], _ => []
  | kv :: t, ck => if kv.1 = ck then kv.2.headD [] else getCanon t ck

/-- Replace (or insert) the binding of an exact key. -/
def setCanon : Header → Str → Str → Header
  | [], ck, v => [(ck, [v])]
  | kv :: t, ck, v => if kv.1 = ck then (ck, [v]) :: t else kv :: setCanon t ck v

/-- Append a value to the binding of an exact key (or insert it). -/
def addCanon : Header → Str → Str → Header
  | [], ck, v => [(ck, [v])]
  | kv :: t, ck, v => if kv.1 = ck then (kv.1, kv.2 ++ [v]) :: t else kv :: addCanon t ck v

/-- Go `Header.Get`: canonicalize the key, return the first value or "". -/
def headerGet (h : Header) (k : Str) : Str := getCanon h (canonicalMIMEHeaderKey k)

/-- Go `Header.Set`: canonicalize the key, replace the binding. -/
def headerSet (h : Header) (k v : Str) : Header := setCanon h (canonicalMIMEHeaderKey k) v

/-- Go `Header.Add`: canonicalize the key, append to the binding. -/
def headerAdd (h : Header) (k v : Str) : Header := addCanon h (canonicalMIMEHeaderKey k) v

/-- Go builtin `delete(h, k)` on the header map: raw key, no
canonicalization (the sources delete both spellings by hand). -/
def headerMapDelete (h : Header) (k : Str) : Header :=
  h.filter (fun kv => decide (kv.1 ≠ k))

/-- dynamic.go `headersFor`: drop both spellings of Content-Length, then set
Content-Encoding (or TE when a Content-Range is present) to the encoding
string. -/
def headersFor (h : Header) (encoding : Nat) : Header :=
  let h1 := headerMapDelete (headerMapDelete h ("content-length".toList)) ("Content-Length".toList)
  let ce := if headerGet h1 ("Content-Range".toList) ≠ [] then "TE".toList
            else "Content-Encoding".toList
  headerSet h1 ce (ceString encoding)

/-- The request attributes the sources consume: URL path, Accept-Encoding
and X-Forwarded-Proto headers, and whether `req.TLS` is non-nil. -/
structure Request where
  path : Str
  acceptEncoding : Str
  xForwardedProto : Str
  tls : Bool

/-- dynamic.go `browserWants`: brotli needs an Accept-Encoding mention of
"br" and a secure transport, gzip needs a mention of "gzip". -/
def browserWants (r : Request) : Nat :=
  if goContains r.acceptEncoding ("br".toList) ∧ (r.tls ∨ r.xForwardedProto = "https".toList)
  then brType
  else if goContains r.acceptEncoding ("gzip".toList) then gzType
  else noneType

/-- dynamic.go `alreadyCompressed`. The Go body guards with
`len(mime) >= 5` and then slices `mime[:6]`, which panics when the length is
exactly 5; the panic is `Option.none`. -/
def alreadyCompressed (mime : Str) : Option Bool :=
  if 5 ≤ mime.length then
    if mime.length < 6 then Option.none
    else
      let ctStart := mime.take 6
      some (if ctStart = "image/".toList then
              decide (mime.drop 6 ≠ "gif".toList ∧ mime.drop 6 ≠ "png".toList)
            else if ctStart = "video/".toList ∨ ctStart = "audio/".toList then true
            else if 9 ≤ mime.length ∧ mime.take 9 = "font/woff".toList then true
            else false)
  else some false

/-- dynamic.go `outBuf.shouldCompress`: pprof paths first, then the
already-compressed content-type check on the response header, then browser
preference. A panic of `alreadyCompressed` propagates. -/
def shouldCompress (r : Request) (h : Header) : Option Nat :=
  if 11 < r.path.length ∧ r.path.take 12 = "/debug/pprof".toList then some noneType
  else
    match alreadyCompressed (headerGet h ("Content-Type".toList)) with
    | Option.none => Option.none
    | some true => some noneType
    | some false => some (browserWants r)

/-- Header effect of dynamic.go `makeCompressor`: `headersFor` for the gzip
and brotli cases, then `Vary: Accept-Encoding` in every case. The gzip
level of `DynamicLevels` is valid, so the error path of
`gzip.NewWriterLevel` cannot trigger. -/
def makeCompressor (h : Header) (encoding : Nat) : Header :=
  let h1 := if encoding = gzType ∨ encoding = brType then headersFor h encoding else h
  headerSet h1 ("Vary".toList) ("Accept-Encoding".toList)

/-- The `outBuf` of dynamic.go that wraps the response writer: the buffered
bytes `b`, the bytes fed to the compressor so far, whether a compressor was
constructed, the chosen encoding, and the response headers. -/
structure outBuf where
  b : Str
  fed : Str
  hasCmp : Bool
  cmpType : Nat
  header : Header

/-- dynamic.go `outBuf.Write`: buffer while no compressor exists and the
total stays under 1024; otherwise catch up (choose an encoding, mutate
headers, feed the buffered bytes, then the chunk). The buffer `b` is not
cleared by the catch-up, exactly as in the source. -/
def outBufWrite (r : Request) (o : outBuf) (chunk : Str) : Option outBuf :=
  if o.hasCmp = false then
    if o.b.length + chunk.length < 1024 then some { o with b := o.b ++ chunk }
    else
      match shouldCompress r o.header with
      | Option.none => Option.none
      | some e =>
          some { o with hasCmp := true, cmpType := e,
                        header := makeCompressor o.header e, fed := o.b ++ chunk }
  else some { o with fed := o.fed ++ chunk }

/-- The fresh `outBuf` built by `Handler` in dynamic.go. -/
def initOutBuf (h : Header) : outBuf :=
  { b := [], fed := [], hasCmp := false, cmpType := noneType, header := h }

/-- A whole handler execution: the sequence of handler writes folded through
`outBuf.Write`. -/
def dynamicRun (r : Request) (h : Header) (writes : List Str) : Option outBuf :=
  List.foldlM (outBufWrite r) (initOutBuf h) writes

/-- Bytes on the underlying sink after the `Handler` finalizer: the closed
compressed stream (the codec `encFn` applied to everything fed, the
pass-through for the `none` fakecloser), followed by the raw buffer write
`output.Write(buf.b)` of the finalizer. -/
def finalizeSink (encFn : Nat → Str → Str) (o : outBuf) : Str :=
  (if o.hasCmp then (if o.cmpType = noneType then o.fed else encFn o.cmpType o.fed) else [])
    ++ o.b

/-- Segment processing of Go `path.Clean`: skip empty and dot segments, let
a dotdot segment pop the stack (dropped at the root when rooted, kept when
not rooted and nothing is left to pop). -/
def cleanSegsAux (rooted : Bool) : List Str → List Str → List Str
  | stack, [] => stack.reverse
  | stack, seg :: rest =>
    if seg = [] ∨ seg = ".".toList then cleanSegsAux rooted stack rest
    else if seg = "..".toList then
      match stack with
      | [] => if rooted then cleanSegsAux rooted [] rest
              else cleanSegsAux rooted [seg] rest
      | top :: stk =>
          if top = "..".toList then cleanSegsAux rooted (seg :: stack) rest
          else cleanSegsAux rooted stk rest
    else cleanSegsAux rooted (seg :: stack) rest

/-- Go `path.Clean`, by its lexical segment algorithm. -/
def goPathClean (p : Str) : Str :=
  if p = [] then ".".toList
  else
    let rooted := p.head? = some '/'
    let segs := cleanSegsAux rooted [] (p.splitOn '/')
    let body := List.intercalate ("/".toList) segs
    if rooted then '/' :: body
    else if body = [] then ".".toList else body

/-- Go `path.Join` restricted to two elements, as every call site of the
sources uses it: join with a slash starting from the first non-empty
element, then clean. -/
def goPathJoin (a b : Str) : Str :=
  if a ≠ [] then goPathClean (a ++ "/".toList ++ b)
  else if b ≠ [] then goPathClean b
  else []

/-- static.go `StaticObj.absPath`: join the source base with the relative
path and require the base to be a character-for-character prefix; for a
non-none encoding, also run the destination check of the source, which
compares `dest` against a prefix of `q` (the source-joined path), not of
`r`, exactly as the source does. -/
def absPath (src dest relPath : Str) (encoding : Nat) : Except Str (Str × Str) :=
  let q := goPathJoin src relPath
  if src.length > q.length ∨ src ≠ q.take src.length then
    Except.error ("Request attempts to escape static with: ".toList ++ relPath)
  else if encoding = noneType then Except.ok (q, q)
  else
    let r := goPathJoin dest relPath
    if dest.length > q.length ∨ dest ≠ q.take dest.length then
      Except.error ("Request attempts to escape static with: ".toList ++ relPath)
    else Except.ok (q, r ++ healthyCache encoding)

/-- What `os.Stat` reports of a file: size, modification time (an integer
instant; Go `After` and `Before` are the strict orders) and the directory
flag. -/
structure FileInfo where
  size : Nat
  modTime : Int
  isDir : Bool
deriving DecidableEq

/-- Bytes handed to the response writer by static.go `SendFile`: either a
raw copy of a file or a file streamed through a fresh compressor of the
given encoding. -/
inductive SendBody
  | raw (bytes : Str)
  | compressed (encoding : Nat) (bytes : Str)
deriving DecidableEq

/-- Observable outcome of static.go `SendFile`: final response headers, the
body, and the paths passed to `StaticObj.Compress` for background work. -/
structure SendFileOut where
  header : Header
  body : SendBody
  enqueued : List Str
deriving DecidableEq

/-- static.go `StaticObj.SendFile` over an explicit filesystem (`stat` and
file contents): negotiate with `browserWants`, resolve paths with
`absPath`, serve the raw source on a zero-size artifact, regenerate through
a fresh compressor when the artifact is missing or the source is strictly
newer, and otherwise stream the cached artifact with `headersFor`. -/
def SendFile (src dest : Str) (stat : Str → Option FileInfo) (contents : Str → Str)
    (r : Request) (h : Header) (relPath : Str) : Except Str SendFileOut :=
  let encoding := browserWants r
  match absPath src dest relPath encoding with
  | Except.error e => Except.error e
  | Except.ok qc =>
    let srcPath := qc.1
    let cachePath := qc.2
    match stat srcPath with
    | Option.none => Except.error ("src not found".toList)
    | some sstat =>
      match stat cachePath with
      | some cstat =>
        if cstat.size = 0 then Except.ok ⟨h, SendBody.raw (contents srcPath), []⟩
        else if sstat.modTime > cstat.modTime then
          Except.ok ⟨makeCompressor h encoding,
                     SendBody.compressed encoding (contents srcPath), [cachePath]⟩
        else Except.ok ⟨headersFor h encoding, SendBody.raw (contents cachePath), []⟩
      | Option.none =>
          Except.ok ⟨makeCompressor h encoding,
                     SendBody.compressed encoding (contents srcPath), [cachePath]⟩

/-- Outcome of one static.go `makeStaticCompressed` job: the temporary
artifact path, the final artifact path (the temporary path with its three
marker characters cut), the bytes written into the temporary file, whether
the zero-length sentinel was chosen, and the bytes published at the final
path. -/
structure CompressJob where
  outPath : Str
  finalPath : Str
  tmpBytes : Str
  sentinel : Bool
  published : Str
deriving DecidableEq

/-- static.go `StaticObj.makeStaticCompressed` with the two codecs as
abstract level-indexed functions. The branch on the encoding and the
size comparison are transcribed exactly: `encoding == brType` selects the
gzip writer, every other encoding the brotli writer, and the sentinel is
chosen when `outSize*9/10 > srcSize` in truncated integer arithmetic. -/
def makeStaticCompressed (gzipNewWriterLevel brotliWriter : Nat → Str → Str)
    (dest srcPath : Str) (srcBytes : Str) (encoding level : Nat) : CompressJob :=
  let outPath := goPathJoin dest srcPath ++ healthyCache encoding ++ "tmp".toList
  let tmpBytes := if encoding = brType then gzipNewWriterLevel level srcBytes
                  else brotliWriter level srcBytes
  let finalPath := outPath.take (outPath.length - 3)
  if tmpBytes.length * 9 / 10 > srcBytes.length then
    ⟨outPath, finalPath, tmpBytes, true, []⟩
  else ⟨outPath, finalPath, tmpBytes, false, tmpBytes⟩

/-- Observable outcome of dynamic.go `outBuf.FS`: the handled flag it
returns, the response headers, the cached bytes streamed (if any), whether
a 304 was sent, whether the response was routed into a fresh caching
compressor (cache warming), and whether an error was recorded. -/
structure FSOut where
  handled : Bool
  header : Header
  body : Option Str
  status304 : Bool
  warmed : Bool
  errored : Bool
deriving DecidableEq

/-- dynamic.go `outBuf.FS` over an explicit filesystem. `imsParsed` is the
If-Modified-Since header after `time.Parse`, `Option.none` when absent or
unparseable; `creatOk` tells which paths the `CreateFile` callback can
create; `hasCompressor` is whether the interceptor already built a
compressor. A panic inside `shouldCompress` is `Option.none`. -/
def outBufFS (method : Str) (r : Request) (h : Header)
    (stat : Str → Option FileInfo) (readFile : Str → Option Str) (creatOk : Str → Bool)
    (imsParsed : Option Int) (hasCompressor : Bool)
    (staticBase origPath : Str) : Option FSOut :=
  if method ≠ "GET".toList then some ⟨false, h, Option.none, false, false, false⟩
  else
    let origFullPath := goPathJoin staticBase origPath
    if ¬ List.isPrefixOf staticBase origFullPath then
      some ⟨false, h, Option.none, false, false, true⟩
    else
      match shouldCompress r h with
      | Option.none => Option.none
      | some cmp =>
        let dest := origFullPath ++ ".".toList ++ ceString cmp
        if cmp = noneType then some ⟨false, h, Option.none, false, false, false⟩
        else
          let warm : FSOut :=
            if hasCompressor = false then
              if creatOk dest = false then ⟨false, h, Option.none, false, false, true⟩
              else if creatOk (origFullPath ++ ".mime".toList) = false then
                ⟨false, h, Option.none, false, false, true⟩
              else ⟨false, makeCompressor h cmp, Option.none, false, true, false⟩
            else ⟨false, h, Option.none, false, false, false⟩
          match stat dest with
          | Option.none => some warm
          | some compressedStat =>
            match stat origFullPath with
            | Option.none => some ⟨false, h, Option.none, false, false, false⟩
            | some origStat =>
              if compressedStat.isDir ∨ origStat.isDir then
                some ⟨false, h, Option.none, false, false, false⟩
              else
                let hit304 := match imsParsed with
                  | some t => decide (origStat.modTime < t)
                  | Option.none => false
                if hit304 then some ⟨true, h, Option.none, true, false, false⟩
                else if compressedStat.modTime > origStat.modTime then
                  let mimepath0 := origFullPath ++ ".mime".toList
                  let dest2 := if dest.head? = some '/' then dest.drop 1 else dest
                  let mimepath := if dest.head? = some '/' then mimepath0.drop 1 else mimepath0
                  match readFile dest2 with
                  | Option.none => some ⟨false, h, Option.none, false, false, true⟩
                  | some fbytes =>
                    match readFile mimepath with
                    | Option.none => some ⟨false, h, Option.none, false, false, true⟩
                    | some mbytes =>
                        some ⟨true,
                              headersFor (headerAdd h ("content-type".toList) mbytes) cmp,
                              some fbytes, false, false, false⟩
                else some warm

/-- The dequeue step of static.go `StaticObj.walker`: read the first queued
root, then `copy(s.walkerPaths, s.walkerPaths[1:])`, which shifts the
elements left but leaves the slice length unchanged, so the last element
stays in place. -/
def walkerDequeue : List Str → Str × List Str
  | [] => ([], [])
  | p :: ps => (p, ps ++ [(p :: ps).getLast (List.cons_ne_nil p ps)])

/-- The walker loop of static.go, fuel-indexed: each iteration under the
lock either observes an empty queue (resets the running flag and exits) or
dequeues a root and walks it. Returns the roots walked in order, the final
queue, and whether the loop is still running when the fuel ends. -/
def walker : Nat → List Str → List Str × List Str × Bool
  | 0, paths => ([], paths, true)
  | _ + 1, [] => ([], [], false)
  | n + 1, p :: ps =>
      let d := walkerDequeue (p :: ps)
      let w := walker n d.2
      (d.1 :: w.1, w.2.1, w.2.2)

/-- The already-compressed heuristic in the words of the specification, for
refinement comparison: image types except gif and png, any video or audio
type, woff font types. -/
def alreadyCompressedSpec (mime : Str) : Bool :=
  decide ((mime.take 6 = "image/".toList ∧ mime.drop 6 ≠ "gif".toList ∧ mime.drop 6 ≠ "png".toList)
    ∨ mime.take 6 = "video/".toList
    ∨ mime.take 6 = "audio/".toList
    ∨ mime.take 9 = "font/woff".toList)

/-- Request of the dynamic failing scenario: a plain API path and an
Accept-Encoding of gzip over an insecure transport. -/
def reqGzipDyn : Request :=
  { path := "/api".toList, acceptEncoding := "gzip".toList, xForwardedProto := [], tls := false }

/-- The concrete compression job of the C3 scenario: a 100-byte source
whose compressed form is 95 bytes (a saving under ten percent). -/
def jobC3 : CompressJob :=
  makeStaticCompressed (fun _ _ => []) (fun _ _ => List.replicate 95 'x')
    "/d".toList "f".toList (List.replicate 100 'y') gzType 9

/-- Request of the C7 counterexample: ordinary path, gzip accepted. -/
def reqC7 : Request :=
  { path := "/x".toList, acceptEncoding := "gzip".toList, xForwardedProto := [], tls := false }

/-- Response headers of the C7 counterexample: a five-byte content type. -/
def hdrC7 : Header := [("Content-Type".toList, ["a/bcd".toList])]

/-- Witness request for C7: an API request accepting gzip. -/
def reqC7w : Request :=
  { path := "/api/users".toList, acceptEncoding := "gzip".toList, xForwardedProto := [], tls := false }

/-- Witness headers for C7: a JSON content type. -/
def hdrC7w : Header := [("Content-Type".toList, ["application/json".toList])]

/-- Filesystem of the C5 SendFile scenario: source and populated `.gz`
artifact with equal modification times. -/
def statC5 : Str → Option FileInfo := fun p =>
  if p = "/a/f".toList then some ⟨100, 5, false⟩
  else if p = "/a/f.gz".toList then some ⟨40, 5, false⟩
  else Option.none

/-- File contents of the C5 SendFile scenario. -/
def contentsC5 : Str → Str := fun p =>
  if p = "/a/f.gz".toList then "zip".toList else "raw".toList

/-- Request of the C5 scenario: gzip accepted, insecure transport. -/
def reqC5 : Request :=
  { path := "/f".toList, acceptEncoding := "gzip".toList, xForwardedProto := [], tls := false }

/-- Filesystem of the C5 FS scenario: source and populated `.gzip` artifact
with equal modification times. -/
def statC5fs : Str → Option FileInfo := fun p =>
  if p = "/a/f".toList then some ⟨100, 5, false⟩
  else if p = "/a/f.gzip".toList then some ⟨40, 5, false⟩
  else Option.none

/-- Request of the C8 scenario: no Accept-Encoding, so negotiation yields
the None encoding. -/
def reqC8 : Request :=
  { path := "/f".toList, acceptEncoding := [], xForwardedProto := [], tls := false }

/-- Filesystem of the C8 scenario: one non-empty source file. -/
def statC8 : Str → Option FileInfo := fun p =>
  if p = "/a/f".toList then some ⟨10, 3, false⟩ else Option.none

/-- File contents of the C8 scenario. -/
def contentsC8 : Str → Str := fun p =>
  if p = "/a/f".toList then "hello".toList else []

/-- Response headers of the C8 scenario: a precomputed Content-Length. -/
def hdrC8 : Header := [("Content-Length".toList, ["10".toList])]

lemma take_eq_forces_length {l : Str} {s : Str} {n : Nat} (h : l.take n = s) :
    l.length = s.length ∨ (n ≤ l.length ∧ s.length = n) := by
  have hl := congrArg List.length h
  simp only [List.length_take] at hl
  rcases Nat.le_total n l.length with hle | hle
  · right; exact ⟨hle, by omega⟩
  · left; omega

lemma length_of_take_eq_woff {mime : Str} (h : mime.take 9 = "font/woff".toList) :
    9 ≤ mime.length := by
  have hl := congrArg List.length h
  simp only [List.length_take] at hl
  have h9 : ("font/woff".toList).length = 9 := rfl
  omega

lemma alreadyCompressed_eq_spec (mime : Str) (h5 : mime.length ≠ 5) :
    alreadyCompressed mime = some (alreadyCompressedSpec mime) := by
  unfold alreadyCompressed alreadyCompressedSpec
  by_cases hlen : 5 ≤ mime.length
  · have h6 : ¬ mime.length < 6 := by omega
    rw [if_pos hlen, if_neg h6]
    dsimp only
    congr 1
    by_cases hi : mime.take 6 = "image/".toList
    · have hw : mime.take 9 ≠ "font/woff".toList := by
        intro hw
        have h2 : mime.take 6 = List.take 6 ("font/woff".toList) := by
          rw [← hw, List.take_take]
          norm_num
        rw [hi] at h2
        exact absurd h2 (by decide)
      have hv : mime.take 6 ≠ "video/".toList := by rw [hi]; decide
      have ha : mime.take 6 ≠ "audio/".toList := by rw [hi]; decide
      rw [if_pos hi]
      refine (decide_eq_decide.mpr ?_).symm
      constructor
      · rintro (⟨_, hp⟩ | hb | hc | hd)
        exacts [hp, absurd hb hv, absurd hc ha, absurd hd hw]
      · intro hp
        exact Or.inl ⟨hi, hp⟩
    · rw [if_neg hi]
      by_cases hva : mime.take 6 = "video/".toList ∨ mime.take 6 = "audio/".toList
      · rw [if_pos hva]
        refine (decide_eq_true ?_).symm
        rcases hva with hb | hc
        exacts [Or.inr (Or.inl hb), Or.inr (Or.inr (Or.inl hc))]
      · rw [if_neg hva]
        by_cases hw9 : 9 ≤ mime.length ∧ mime.take 9 = "font/woff".toList
        · rw [if_pos hw9]
          exact (decide_eq_true (Or.inr (Or.inr (Or.inr hw9.2)))).symm
        · rw [if_neg hw9]
          symm
          apply decide_eq_false
          rintro (⟨hb, _⟩ | hb | hb | hb)
          · exact hi hb
          · exact hva (Or.inl hb)
          · exact hva (Or.inr hb)
          · exact hw9 ⟨length_of_take_eq_woff hb, hb⟩
  · have hlt : mime.length < 5 := by omega
    rw [if_neg hlen]
    have hshort : ∀ s : Str, s.length = 6 → mime.take 6 ≠ s := by
      intro s hs heq
      have hl := congrArg List.length heq
      simp only [List.length_take] at hl
      omega
    congr 1
    symm
    apply decide_eq_false
    rintro (⟨hb, _⟩ | hb | hb | hb)
    · exact hshort ("image/".toList) rfl hb
    · exact hshort ("video/".toList) rfl hb
    · exact hshort ("audio/".toList) rfl hb
    · exact absurd (length_of_take_eq_woff hb) (by omega)

lemma getCanon_setCanon_self (h : Header) (ck v : Str) :
    getCanon (setCanon h ck v) ck = v := by
  induction h with
  | nil => simp [setCanon, getCanon]
  | cons kv t ih =>
      by_cases hk : kv.1 = ck
      · simp [setCanon, hk, getCanon]
      · simp [setCanon, hk, getCanon, ih]

lemma getCanon_eq_nil_of_not_mem {h : Header} {ck : Str}
    (hm : ∀ kv ∈ h, kv.1 ≠ ck) : getCanon h ck = [] := by
  induction h with
  | nil => simp [getCanon]
  | cons kv t ih =>
      have h1 : kv.1 ≠ ck := hm kv (by simp)
      simp [getCanon, h1]
      exact ih (fun x hx => hm x (by simp [hx]))

lemma mem_headerMapDelete {h : Header} {k : Str} {kv : Str × List Str}
    (hm : kv ∈ headerMapDelete h k) : kv ∈ h := by
  simp only [headerMapDelete, List.mem_filter] at hm
  exact hm.1

lemma headerGet_headersFor_none (h : Header)
    (hcr : ∀ kv ∈ h, kv.1 ≠ "Content-Range".toList) :
    headerGet (headersFor h noneType) ("Content-Encoding".toList) = "identity".toList := by
  unfold headersFor
  have hcr2 : headerGet
      (headerMapDelete (headerMapDelete h ("content-length".toList)) ("Content-Length".toList))
      ("Content-Range".toList) = [] := by
    apply getCanon_eq_nil_of_not_mem
    intro kv hkv
    exact hcr kv (mem_headerMapDelete (mem_headerMapDelete hkv))
  dsimp only
  rw [if_neg (by simp only [ne_eq, hcr2, not_true_eq_false, not_false_eq_true])]
  unfold headerGet headerSet
  rw [getCanon_setCanon_self]
  rfl
lemma foldl_outBufWrite_small (ws : List Str) (r : Request) :
    ∀ o : outBuf, o.hasCmp = false → o.b.length + (ws.map List.length).sum < 1024 →
      List.foldlM (outBufWrite r) o ws = some { o with b := o.b ++ ws.flatten } := by
  induction ws with
  | nil =>
      intro o h1 _
      simp [List.foldlM]
  | cons w t ih =>
      intro o h1 h2
      simp only [List.map_cons, List.sum_cons] at h2
      have hw : o.b.length + w.length < 1024 := by omega
      have step : outBufWrite r o w = some { o with b := o.b ++ w } := by
        unfold outBufWrite
        rw [if_pos h1, if_pos hw]
      simp only [List.foldlM, step, Option.bind_some]
      have := ih { o with b := o.b ++ w } h1 (by simp; omega)
      simpa [List.append_assoc] using this

/-- C6: for every sequence of handler writes totaling under 1024 bytes, the
finalized sink holds exactly the handler bytes in order, no compressor is
ever constructed, and the response headers (hence Content-Encoding) are
untouched. -/
theorem claim6_small_payload_passthrough (r : Request) (h : Header) (ws : List Str)
    (hlen : (ws.map List.length).sum < 1024) :
    ∃ o, dynamicRun r h ws = some o ∧ o.hasCmp = false ∧ o.header = h ∧
      ∀ encFn, finalizeSink encFn o = ws.flatten := by
  refine ⟨{ b := ws.flatten, fed := [], hasCmp := false, cmpType := noneType, header := h },
    ?_, rfl, rfl, ?_⟩
  · have hstep := foldl_outBufWrite_small ws r (initOutBuf h) rfl (by simpa [initOutBuf] using hlen)
    simpa [dynamicRun, initOutBuf] using hstep
  · intro encFn
    simp [finalizeSink]

/-- Witness for C6 at two concrete writes of three bytes total. -/
theorem claim6_small_payload_passthrough_witness :
    (([ "ab".toList, "c".toList ].map List.length).sum < 1024) ∧
    (∃ o, dynamicRun reqGzipDyn [] [ "ab".toList, "c".toList ] = some o ∧ o.hasCmp = false ∧
      o.header = [] ∧ ∀ encFn, finalizeSink encFn o = ([ "ab".toList, "c".toList ]).flatten) :=
  ⟨by decide, claim6_small_payload_passthrough reqGzipDyn [] _ (by decide)⟩

/-- C1 (code bug): with Accept-Encoding gzip and handler writes of 1 byte
and 1023 bytes (1024 total), the catch-up leaves the first chunk in the
buffer and the finalizer writes it raw after the closed gzip stream, so the
sink holds the compressed stream followed by one stray byte, for every
codec. Decompressing therefore cannot yield exactly the handler bytes. -/
theorem claim1_buffered_tail_duplicated (encFn : Nat → Str → Str) :
    (dynamicRun reqGzipDyn [] [['a'], List.replicate 1023 'b']).map
        (fun o => (o.cmpType, finalizeSink encFn o))
      = some (gzType, encFn gzType (['a'] ++ List.replicate 1023 'b') ++ ['a']) := by
  set_option maxRecDepth 8000 in rfl

/-- C9 (code bug): the walker dequeue never shrinks the queue, so with one
pending root the loop walks that root once per fuel step, the queue stays
non-empty, and the running flag is never reset: the loop does not
terminate and walks the root more than once. -/
theorem claim9_walker_never_terminates (n : Nat) :
    walker n ["static".toList] =
      (List.replicate n ("static".toList), ["static".toList], true) := by
  induction n with
  | zero => rfl
  | succ k ih =>
      simp only [walker, walkerDequeue, List.nil_append, List.getLast_singleton, ih,
        List.replicate_succ]

/-- C10 (code bug): `alreadyCompressed` guards with a length of at least 5
and then slices six bytes, so every content-type of length exactly 5 makes
it panic instead of returning a decision. -/
theorem claim10_alreadyCompressed_panics_at_len5 (mime : Str) (h : mime.length = 5) :
    alreadyCompressed mime = Option.none := by
  unfold alreadyCompressed
  rw [if_pos (by omega), if_pos (by omega)]

/-- Witness for C10 at the five-byte content type a/bcd. -/
theorem claim10_alreadyCompressed_panics_at_len5_witness :
    ("a/bcd".toList).length = 5 ∧ alreadyCompressed ("a/bcd".toList) = Option.none :=
  ⟨by decide, claim10_alreadyCompressed_panics_at_len5 ("a/bcd".toList) (by decide)⟩

/-- C4 (code bug): with the default cache directory, a plain in-base
request resolves inside the source base (the base is a prefix of the
joined path) yet `absPath` rejects it, because the second check compares
the destination base against a prefix of the source-joined path. -/
theorem claim4_absPath_rejects_inside_base :
    absPath "/src".toList "/tmp/gowebcache".toList "a.txt".toList gzType
        = Except.error ("Request attempts to escape static with: a.txt".toList)
      ∧ goPathJoin "/src".toList "a.txt".toList = "/src/a.txt".toList
      ∧ List.isPrefixOf ("/src".toList) (goPathJoin "/src".toList "a.txt".toList) = true :=
  ⟨by rfl, by decide, by decide⟩

lemma makeStaticCompressed_tmpBytes (g b : Nat → Str → Str) (dest srcPath srcBytes : Str)
    (encoding level : Nat) :
    (makeStaticCompressed g b dest srcPath srcBytes encoding level).tmpBytes
      = if encoding = brType then g level srcBytes else b level srcBytes := by
  unfold makeStaticCompressed
  dsimp only
  split <;> (split <;> rfl)

/-- C2 (code bug): the per-file compression job tests `encoding == brType`
to select the gzip writer and otherwise selects the brotli writer, so the
job for the `.gz` artifact fills it with brotli output and the job for the
`.br` artifact fills it with gzip output, for every codec pair, level and
input. -/
theorem claim2_static_codecs_swapped (gzipNewWriterLevel brotliWriter : Nat → Str → Str)
    (dest srcPath srcBytes : Str) (level : Nat) :
    (makeStaticCompressed gzipNewWriterLevel brotliWriter dest srcPath srcBytes gzType level).tmpBytes
        = brotliWriter level srcBytes
      ∧ (makeStaticCompressed gzipNewWriterLevel brotliWriter dest srcPath srcBytes brType level).tmpBytes
        = gzipNewWriterLevel level srcBytes
      ∧ healthyCache gzType = ".gz".toList ∧ healthyCache brType = ".br".toList := by
  refine ⟨?_, ?_, by decide, by decide⟩
  · rw [makeStaticCompressed_tmpBytes]
    norm_num [gzType, brType]
  · rw [makeStaticCompressed_tmpBytes]
    norm_num

/-- C3 (code bug): a 95-byte temp for a 100-byte source exceeds 90 percent
of the source size, yet the job publishes the populated temp instead of the
zero-length sentinel, because the source computes `outSize*9/10 > srcSize`
instead of comparing the temp against nine tenths of the source. -/
theorem claim3_sentinel_threshold_transposed :
    jobC3.sentinel = false ∧ jobC3.published = List.replicate 95 'x' ∧ 95 > 9 * 100 / 10 :=
  ⟨by rfl, by rfl, by decide⟩

/-- C7 counterexample: a non-pprof request that accepts gzip and whose
content type is not one of the already-compressed types receives no
decision at all (the content-type check panics), where the claimed cascade
would return Gzip. -/
theorem claim7_counterexample :
    shouldCompress reqC7 hdrC7 = Option.none
      ∧ browserWants reqC7 = gzType
      ∧ ¬ (11 < reqC7.path.length ∧ reqC7.path.take 12 = "/debug/pprof".toList)
      ∧ alreadyCompressedSpec (headerGet hdrC7 ("Content-Type".toList)) = false := by
  refine ⟨by rfl, by rfl, by decide, by rfl⟩

/-- C7 as amended: for every request whose response content type is not
exactly five bytes long (where the check panics), the decision follows the
strict first-match cascade of the specification: pprof prefix, then the
already-compressed content types, then Brotli over a secure transport, then
Gzip, then None; and image/png stays eligible while image/jpeg is treated
as already compressed. -/
theorem claim7_negotiation_cascade (r : Request) (h : Header)
    (hct : (headerGet h ("Content-Type".toList)).length ≠ 5) :
    shouldCompress r h =
      some (if 11 < r.path.length ∧ r.path.take 12 = "/debug/pprof".toList then noneType
        else if alreadyCompressedSpec (headerGet h ("Content-Type".toList)) = true then noneType
        else if goContains r.acceptEncoding ("br".toList)
                ∧ (r.tls ∨ r.xForwardedProto = "https".toList) then brType
        else if goContains r.acceptEncoding ("gzip".toList) then gzType
        else noneType)
    ∧ alreadyCompressed ("image/png".toList) = some false
    ∧ alreadyCompressed ("image/jpeg".toList) = some true := by
  refine ⟨?_, by decide, by decide⟩
  unfold shouldCompress
  by_cases hp : 11 < r.path.length ∧ r.path.take 12 = "/debug/pprof".toList
  · rw [if_pos hp, if_pos hp]
  · rw [if_neg hp, if_neg hp]
    rw [alreadyCompressed_eq_spec _ hct]
    cases hb : alreadyCompressedSpec (headerGet h ("Content-Type".toList))
    · simp [browserWants]
    · simp

/-- Witness for C7: the cascade at a concrete JSON request yields Gzip. -/
theorem claim7_negotiation_cascade_witness :
    shouldCompress reqC7w hdrC7w = some gzType := by
  have hmain := (claim7_negotiation_cascade reqC7w hdrC7w (by decide)).1
  rw [hmain]
  decide

/-- C5 counterexample: a populated artifact whose modification time equals
the source modification time is served as a cache hit by SendFile, with no
regeneration enqueued, where the claim demands it be treated as stale. -/
theorem claim5_counterexample :
    SendFile "/a".toList "/a".toList statC5 contentsC5 reqC5 [] "f".toList
        = Except.ok ⟨headersFor [] gzType, SendBody.raw ("zip".toList), []⟩
      ∧ (statC5 "/a/f.gz".toList).map FileInfo.modTime = (statC5 "/a/f".toList).map FileInfo.modTime
      ∧ (statC5 "/a/f.gz".toList).map FileInfo.size = some 40 := by
  refine ⟨by rfl, by rfl, by rfl⟩

/-- C5 as amended: in SendFile a populated artifact is served as a cache
hit exactly when the source is not strictly newer than the artifact, so
equal modification times count as a hit, and only a strictly newer source
triggers regeneration; in the dynamic FS path the cached artifact is served
exactly when it is strictly newer than the source, and otherwise the
request falls through to cache warming. -/
theorem claim5_freshness_amended :
    (∀ (src dest : Str) (stat : Str → Option FileInfo) (contents : Str → Str)
        (r : Request) (h : Header) (rel srcPath cachePath : Str) (sstat cstat : FileInfo),
      absPath src dest rel (browserWants r) = Except.ok (srcPath, cachePath) →
      stat srcPath = some sstat → stat cachePath = some cstat → cstat.size ≠ 0 →
      SendFile src dest stat contents r h rel =
        (if sstat.modTime > cstat.modTime then
          Except.ok ⟨makeCompressor h (browserWants r),
                     SendBody.compressed (browserWants r) (contents srcPath), [cachePath]⟩
         else Except.ok ⟨headersFor h (browserWants r), SendBody.raw (contents cachePath), []⟩))
    ∧
    (∀ (r : Request) (h : Header) (stat : Str → Option FileInfo) (readFile : Str → Option Str)
        (base orig : Str) (cmp : Nat) (cs os : FileInfo) (fbytes mbytes : Str),
      shouldCompress r h = some cmp → cmp ≠ noneType →
      List.isPrefixOf base (goPathJoin base orig) = true →
      stat (goPathJoin base orig ++ ".".toList ++ ceString cmp) = some cs →
      stat (goPathJoin base orig) = some os →
      cs.isDir = false → os.isDir = false →
      readFile (if (goPathJoin base orig ++ ".".toList ++ ceString cmp).head? = some '/'
                then (goPathJoin base orig ++ ".".toList ++ ceString cmp).drop 1
                else goPathJoin base orig ++ ".".toList ++ ceString cmp) = some fbytes →
      readFile (if (goPathJoin base orig ++ ".".toList ++ ceString cmp).head? = some '/'
                then (goPathJoin base orig ++ ".mime".toList).drop 1
                else goPathJoin base orig ++ ".mime".toList) = some mbytes →
      outBufFS ("GET".toList) r h stat readFile (fun _ => true) Option.none false base orig =
        some (if cs.modTime > os.modTime then
                ⟨true, headersFor (headerAdd h ("content-type".toList) mbytes) cmp,
                 some fbytes, false, false, false⟩
              else ⟨false, makeCompressor h cmp, Option.none, false, true, false⟩)) := by
  constructor
  · intro src dest stat contents r h rel srcPath cachePath sstat cstat habs hs hc hpop
    unfold SendFile
    dsimp only
    rw [habs]
    dsimp only
    rw [hs, hc]
    dsimp only
    rw [if_neg hpop]
  · intro r h stat readFile base orig cmp cs os fbytes mbytes hsc hcmp hpre hcs hos hcd hod hrf hrm
    unfold outBufFS
    rw [if_neg (by simp)]
    dsimp only
    rw [if_neg (by simp [hpre])]
    rw [hsc]
    dsimp only
    rw [if_neg hcmp]
    rw [hcs, hos]
    dsimp only
    rw [if_neg (by simp [hcd, hod])]
    rw [if_neg (by simp)]
    by_cases hmod : cs.modTime > os.modTime
    · rw [if_pos hmod, if_pos hmod]
      rw [hrf, hrm]
    · rw [if_neg hmod, if_neg hmod]
      simp

/-- Witness for C5 at equal modification times: SendFile serves the cached
bytes and the FS path falls through to warming. -/
theorem claim5_freshness_amended_witness :
    SendFile "/a".toList "/a".toList statC5 contentsC5 reqC5 [] "f".toList
        = Except.ok ⟨headersFor [] gzType, SendBody.raw (contentsC5 "/a/f.gz".toList), []⟩
      ∧ outBufFS ("GET".toList) reqC5 [] statC5fs (fun _ => some "m".toList) (fun _ => true)
          Option.none false "/a".toList "f".toList
        = some ⟨false, makeCompressor [] gzType, Option.none, false, true, false⟩ := by
  constructor
  · have hA := claim5_freshness_amended.1 "/a".toList "/a".toList statC5 contentsC5 reqC5 []
      "f".toList "/a/f".toList "/a/f.gz".toList ⟨100, 5, false⟩ ⟨40, 5, false⟩
      (by rfl) (by rfl) (by rfl) (by decide)
    rw [hA]
    rfl
  · have hB := claim5_freshness_amended.2 reqC5 [] statC5fs (fun _ => some "m".toList)
      "/a".toList "f".toList gzType ⟨40, 5, false⟩ ⟨100, 5, false⟩ "m".toList "m".toList
      (by rfl) (by decide) (by decide) (by rfl) (by rfl) (by rfl) (by rfl) (by rfl) (by rfl)
    rw [hB]
    rfl

/-- C8 counterexample: with the None encoding SendFile serves the source
bytes but mutates the headers, deleting Content-Length and setting
Content-Encoding to identity, where the claim demands the headers stay
untouched. -/
theorem claim8_counterexample :
    browserWants reqC8 = noneType
      ∧ SendFile "/a".toList "/d".toList statC8 contentsC8 reqC8 hdrC8 "f".toList
        = Except.ok ⟨[("Content-Encoding".toList, ["identity".toList])],
                     SendBody.raw ("hello".toList), []⟩
      ∧ headerGet [("Content-Encoding".toList, ["identity".toList])] ("Content-Length".toList) = []
      ∧ headerGet hdrC8 ("Content-Length".toList) = "10".toList := by
  refine ⟨by rfl, by rfl, by rfl, by rfl⟩

/-- C8 as amended: when negotiation yields None, SendFile serves the raw
source bytes (the artifact path coincides with the source path, so no
separate artifact exists) and enqueues nothing; for a non-empty source the
cached-bits branch runs `headersFor` with the identity encoding, removing
Content-Length and setting Content-Encoding to identity (TE instead when a
Content-Range is present); for an empty source the headers stay untouched. -/
theorem claim8_none_encoding_amended (src dest : Str) (stat : Str → Option FileInfo)
    (contents : Str → Str) (r : Request) (h : Header) (rel : Str) (st : FileInfo)
    (henc : browserWants r = noneType)
    (habs : absPath src dest rel noneType = Except.ok (goPathJoin src rel, goPathJoin src rel))
    (hstat : stat (goPathJoin src rel) = some st) :
    SendFile src dest stat contents r h rel =
      (if st.size = 0 then Except.ok ⟨h, SendBody.raw (contents (goPathJoin src rel)), []⟩
       else Except.ok ⟨headersFor h noneType, SendBody.raw (contents (goPathJoin src rel)), []⟩)
    ∧ ((∀ kv ∈ h, kv.1 ≠ "Content-Range".toList) →
        headerGet (headersFor h noneType) ("Content-Encoding".toList) = "identity".toList) := by
  constructor
  · unfold SendFile
    dsimp only
    rw [henc, habs]
    dsimp only
    rw [hstat]
    dsimp only
    by_cases hz : st.size = 0
    · rw [if_pos hz, if_pos hz]
    · rw [if_neg hz, if_neg hz, if_neg (lt_irrefl st.modTime)]
  · exact headerGet_headersFor_none h

/-- Witness for C8 at the concrete non-empty source. -/
theorem claim8_none_encoding_amended_witness :
    SendFile "/a".toList "/d".toList statC8 contentsC8 reqC8 hdrC8 "f".toList
        = Except.ok ⟨headersFor hdrC8 noneType,
                     SendBody.raw (contentsC8 (goPathJoin "/a".toList "f".toList)), []⟩
      ∧ headerGet (headersFor hdrC8 noneType) ("Content-Encoding".toList) = "identity".toList := by
  have hm := claim8_none_encoding_amended "/a".toList "/d".toList statC8 contentsC8 reqC8 hdrC8
    "f".toList ⟨10, 3, false⟩ (by rfl) (by rfl) (by rfl)
  refine ⟨?_, hm.2 (by decide)⟩
  rw [hm.1]
  rfl

